import Mathlib

/-!
Verification of the dispatch and validation pipeline of `cita-cli`
(`src/cita-cli/src/cli/contract_command.rs`).

The file embeds, as executable Lean definitions:
* the argument validators imported from the `cli` module (modelled from the
  spec, since that module is not part of the given sources);
* the command schema registry built by `contract_command`;
* the argument matching/validation semantics of the CLI layer (unknown flags
  rejected, validators run, required flags enforced, defaults applied);
* the dispatcher `contract_processor`, branch by branch, including the
  `unwrap` calls (modelled as an explicit `panicked` outcome) and the early
  usage-error returns, with the contract client facades abstracted as an
  oracle recording each issued call.
-/

namespace CitaCli

/-! ## Character and string helpers -/

def isHexDigitC (c : Char) : Bool :=
  c.isDigit || (('a' ≤ c && c ≤ 'f') || ('A' ≤ c && c ≤ 'F'))

/-- Strip an optional leading `0x` mark, returning the remaining characters. -/
def dropHexMark (s : String) : List Char :=
  match s.data with
  | '0' :: 'x' :: rest => rest
  | l => l

def decDigits (l : List Char) : Bool :=
  !l.isEmpty && l.all Char.isDigit

def decToNat (l : List Char) : Nat :=
  l.foldl (fun acc c => acc * 10 + (c.toNat - 48)) 0

/-! ## Argument validators (the `cli` module)

These functions are imported by `contract_command.rs` from the `cli` module,
whose source is not included under `src/`; they are modelled from the spec
(section 4.1, Argument Validators). -/

/-- Modelled from the spec: the Address validator accepts exactly a
hex-encoded 20-byte sequence, optionally `0x`-prefixed; `parse_address` is
missing from `src/`. -/
def parse_address (s : String) : Except String Unit :=
  let body := dropHexMark s
  if body.length == 40 && body.all isHexDigitC then .ok () else .error "InvalidFormat"

/-- Modelled from the spec: the hash/function-selector validator only asserts
that the input is syntactically valid hex, with no length constraint;
`is_hex` is missing from `src/`. -/
def is_hex (s : String) : Except String Unit :=
  let body := dropHexMark s
  if !body.isEmpty && body.all isHexDigitC then .ok () else .error "InvalidFormat"

/-- Modelled from the spec: the U64 validator accepts decimal strings
representable in 64 bits and returns the exact numeric value; `parse_u64` is
missing from `src/`. -/
def parse_u64 (s : String) : Except String Nat :=
  if decDigits s.data then
    let n := decToNat s.data
    if n < 2 ^ 64 then .ok n else .error "OutOfRange"
  else .error "InvalidFormat"

/-- Modelled from the spec: the BlockHeight validator accepts the literal
`latest` or a decimal non-negative integer; `parse_height` is missing
from `src/`. -/
def parse_height (s : String) : Except String Unit :=
  if s == "latest" || decDigits s.data then .ok () else .error "InvalidHeight"

/-- Modelled from the spec: the PrivateKey validator accepts a hex-encoded
key of the expected byte length (64 hex characters in the scenario of
section 8), optionally `0x`-prefixed, and returns the key; `parse_privkey`
is missing from `src/`. -/
def parse_privkey (s : String) : Except String String :=
  let body := dropHexMark s
  if body.length == 64 && body.all isHexDigitC then .ok s else .error "InvalidKey"

/-- The standard Rust `str::parse::<bool>`: accepts exactly the literals
`true` and `false` (used by the `--state` validator and by the dispatcher). -/
def parseBoolRust (s : String) : Option Bool :=
  if s == "true" then some true else if s == "false" then some false else none

/-! ## Argument specifications -/

/-- The validator attached to an `Arg` in `contract_command`: the named
functions from the `cli` module, Rust bool parsing for `--state`, or no
validator at all. -/
inductive Validator where
  | addr
  | hex
  | u64
  | height
  | privkey
  | boolLit
  | accept
  deriving DecidableEq, Repr

def runValidator : Validator → String → Except String Unit
  | .addr, s => parse_address s
  | .hex, s => is_hex s
  | .u64, s => (parse_u64 s).map fun _ => ()
  | .height, s => parse_height s
  | .privkey, s => (parse_privkey s).map fun _ => ()
  | .boolLit, s =>
    match parseBoolRust s with
    | some _ => .ok ()
    | none => .error "provided string was not true or false"
  | .accept, _ => .ok ()

/-- One `Arg::with_name(...)` declaration of `contract_command`. -/
structure ArgSpec where
  name : String
  required : Bool
  validator : Validator
  defaultVal : Option String
  multiple : Bool
  deriving DecidableEq, Repr

def reqArg (n : String) (v : Validator) : ArgSpec := ⟨n, true, v, none, false⟩

/-- `address_arg` (also cloned as group, role address args). -/
def addressArg : ArgSpec := reqArg "address" .addr

/-- `name_arg` (also cloned as group, role, permission name args): no validator. -/
def nameArg : ArgSpec := reqArg "name" .accept

/-- `quota_arg`: optional, validated by `parse_u64`. -/
def quotaSpec : ArgSpec := ⟨"quota", false, .u64, none, false⟩

/-- `height_arg`: optional, default value `latest`, validated by `parse_height`. -/
def heightSpec : ArgSpec := ⟨"height", false, .height, some "latest", false⟩

/-- `group_origin_arg`: required, validated by `is_hex`. -/
def originArg : ArgSpec := reqArg "origin" .hex

/-- `group_target_arg`: required, validated by `is_hex`. -/
def targetArg : ArgSpec := reqArg "target" .hex

/-- `group_accounts_arg`: required, no validator attached. -/
def accountsArg : ArgSpec := reqArg "accounts" .accept

/-- `account_address_arg`: required, validated by `parse_address`. -/
def accountArg : ArgSpec := reqArg "account" .addr

/-- `contract_address_arg`: required, validated by `parse_address`. -/
def contractArg : ArgSpec := reqArg "contract" .addr

/-- `function_hash_arg`: required, validated by `is_hex`. -/
def functionHashArg : ArgSpec := reqArg "function-hash" .hex

/-- `contracts_address_arg`: required, validated by `parse_address`. -/
def contractsArg : ArgSpec := reqArg "contracts" .addr

/-- `function_hashes_arg`: required, no validator attached. -/
def functionHashesArg : ArgSpec := reqArg "function-hashes" .accept

/-- `private_key`: required, validated by `parse_privkey`. -/
def privateKeyArg : ArgSpec := reqArg "private-key" .privkey

/-- `permission_address_arg`: required, validated by `parse_address`. -/
def permissionArg : ArgSpec := reqArg "permission" .addr

/-- `permissions_address_arg`: required, validated by `parse_address`. -/
def permissionsArg : ArgSpec := reqArg "permissions" .addr

/-- The inline `admin-private` argument: required, validated by `parse_privkey`. -/
def adminPrivateArg : ArgSpec := reqArg "admin-private" .privkey

/-- The inline `stake` argument: required, validated by `parse_u64`. -/
def stakeArg : ArgSpec := reqArg "stake" .u64

/-- The inline `quota-limit` argument: required, validated by `parse_u64`. -/
def quotaLimitArg : ArgSpec := reqArg "quota-limit" .u64

/-- The inline `state` argument: required, validated by Rust bool parsing. -/
def stateArg : ArgSpec := reqArg "state" .boolLit

/-- The inline `tx-code` argument: required, multiple, validated by `is_hex`. -/
def txCodeArg : ArgSpec := ⟨"tx-code", true, .hex, none, true⟩

/-! ## The command schema registry (`contract_command`) -/

structure OpSpec where
  name : String
  args : List ArgSpec
  deriving DecidableEq, Repr

structure GroupSpec where
  name : String
  ops : List OpSpec
  deriving DecidableEq, Repr

/-- The schema registry built by `contract_command`, transcribed subcommand by
subcommand from the source. -/
def contract_command : List GroupSpec :=
  [ ⟨"NodeManager",
      [ ⟨"listNode", [heightSpec]⟩
      , ⟨"listStake", [heightSpec]⟩
      , ⟨"getStatus", [addressArg, heightSpec]⟩
      , ⟨"deleteNode", [adminPrivateArg, addressArg, quotaSpec]⟩
      , ⟨"approveNode", [adminPrivateArg, addressArg, quotaSpec]⟩
      , ⟨"setStake", [adminPrivateArg, stakeArg, addressArg, quotaSpec]⟩
      , ⟨"stakePermillage", [addressArg, heightSpec]⟩ ]⟩
  , ⟨"QuotaManager",
      [ ⟨"getBQL", [heightSpec]⟩
      , ⟨"getDefaultAQL", [heightSpec]⟩
      , ⟨"getAccounts", [heightSpec]⟩
      , ⟨"getQuotas", [heightSpec]⟩
      , ⟨"getAQL", [addressArg]⟩
      , ⟨"setBQL", [quotaLimitArg, adminPrivateArg, quotaSpec]⟩
      , ⟨"setDefaultAQL", [quotaLimitArg, adminPrivateArg, quotaSpec]⟩
      , ⟨"setAQL", [quotaLimitArg, adminPrivateArg, addressArg, quotaSpec]⟩ ]⟩
  , ⟨"GroupManagement",
      [ ⟨"newGroup", [originArg, nameArg, accountsArg, quotaSpec, privateKeyArg]⟩
      , ⟨"deleteGroup", [originArg, targetArg, quotaSpec, privateKeyArg]⟩
      , ⟨"updateGroupName", [originArg, targetArg, nameArg, quotaSpec, privateKeyArg]⟩
      , ⟨"addAccounts", [originArg, targetArg, accountsArg, quotaSpec, privateKeyArg]⟩
      , ⟨"deleteAccounts", [originArg, targetArg, accountsArg, quotaSpec, privateKeyArg]⟩
      , ⟨"checkScope", [originArg, targetArg, heightSpec]⟩
      , ⟨"queryGroups", [heightSpec]⟩ ]⟩
  , ⟨"Group",
      [ ⟨"queryInfo", [addressArg, heightSpec]⟩
      , ⟨"queryName", [addressArg, heightSpec]⟩
      , ⟨"queryAccounts", [addressArg, heightSpec]⟩
      , ⟨"queryChild", [addressArg, heightSpec]⟩
      , ⟨"queryChildLength", [addressArg, heightSpec]⟩
      , ⟨"queryParent", [addressArg, heightSpec]⟩
      , ⟨"inGroup", [addressArg, heightSpec]⟩ ]⟩
  , ⟨"Role",
      [ ⟨"queryRole", [addressArg, heightSpec]⟩
      , ⟨"queryName", [addressArg, heightSpec]⟩
      , ⟨"queryPermissions", [addressArg, heightSpec]⟩
      , ⟨"lengthOfPermissions", [addressArg, heightSpec]⟩
      , ⟨"inPermissions", [addressArg, permissionArg, heightSpec]⟩ ]⟩
  , ⟨"RoleManagement",
      [ ⟨"newRole", [nameArg, permissionsArg, quotaSpec, privateKeyArg]⟩
      , ⟨"deleteRole", [addressArg, quotaSpec, privateKeyArg]⟩
      , ⟨"updateRoleName", [addressArg, nameArg, quotaSpec, privateKeyArg]⟩
      , ⟨"addPermissions", [addressArg, permissionsArg, quotaSpec, privateKeyArg]⟩
      , ⟨"deletePermissions", [addressArg, permissionsArg, quotaSpec, privateKeyArg]⟩
      , ⟨"setRole", [accountArg, addressArg, quotaSpec, privateKeyArg]⟩
      , ⟨"cancelRole", [accountArg, addressArg, quotaSpec, privateKeyArg]⟩
      , ⟨"clearRole", [accountArg, quotaSpec, privateKeyArg]⟩
      , ⟨"queryRoles", [accountArg, heightSpec]⟩
      , ⟨"queryAccounts", [addressArg, heightSpec]⟩ ]⟩
  , ⟨"Authorization",
      [ ⟨"queryPermissions", [accountArg, heightSpec]⟩
      , ⟨"queryAccounts", [permissionArg, heightSpec]⟩
      , ⟨"queryAllAccounts", [heightSpec]⟩
      , ⟨"checkResource", [accountArg, contractArg, functionHashArg, heightSpec]⟩
      , ⟨"checkPermission", [accountArg, permissionArg, heightSpec]⟩ ]⟩
  , ⟨"Permission",
      [ ⟨"inPermission", [permissionArg, contractArg, functionHashArg, heightSpec]⟩
      , ⟨"queryInfo", [permissionArg, heightSpec]⟩
      , ⟨"queryName", [permissionArg, heightSpec]⟩
      , ⟨"queryResource", [permissionArg, heightSpec]⟩ ]⟩
  , ⟨"PermissionManagement",
      [ ⟨"newPermission", [nameArg, contractsArg, functionHashesArg, quotaSpec, privateKeyArg]⟩
      , ⟨"deletePermission", [permissionArg, quotaSpec, privateKeyArg]⟩
      , ⟨"updatePermissionName", [permissionArg, nameArg, quotaSpec, privateKeyArg]⟩
      , ⟨"addResources", [permissionArg, contractsArg, functionHashesArg, quotaSpec, privateKeyArg]⟩
      , ⟨"deleteResources", [permissionArg, contractsArg, functionHashesArg, quotaSpec, privateKeyArg]⟩
      , ⟨"setAuthorization", [permissionArg, accountArg, quotaSpec, privateKeyArg]⟩
      , ⟨"setAuthorizations", [permissionsArg, accountArg, quotaSpec, privateKeyArg]⟩
      , ⟨"cancelAuthorization", [permissionArg, accountArg, quotaSpec, privateKeyArg]⟩
      , ⟨"cancelAuthorizations", [permissionsArg, accountArg, quotaSpec, privateKeyArg]⟩
      , ⟨"clearAuthorization", [accountArg, quotaSpec, privateKeyArg]⟩ ]⟩
  , ⟨"AdminManagement",
      [ ⟨"admin", [heightSpec]⟩
      , ⟨"isAdmin", [addressArg, heightSpec]⟩
      , ⟨"update", [addressArg, adminPrivateArg, quotaSpec]⟩ ]⟩
  , ⟨"BatchTx",
      [ ⟨"multiTxs", [txCodeArg, quotaSpec, privateKeyArg]⟩ ]⟩
  , ⟨"SysConfig",
      [ ⟨"getChainOwner", [heightSpec]⟩
      , ⟨"getDelayBlockNumber", [heightSpec]⟩
      , ⟨"getFeeBackPlatformCheck", [heightSpec]⟩
      , ⟨"getEconomicalModel", [heightSpec]⟩
      , ⟨"getPermissionCheck", [heightSpec]⟩
      , ⟨"getQuotaCheck", [heightSpec]⟩
      , ⟨"setChainName", [⟨"chain-name", true, .accept, none, false⟩, quotaSpec, adminPrivateArg]⟩
      , ⟨"setOperator", [⟨"operator", true, .accept, none, false⟩, quotaSpec, adminPrivateArg]⟩
      , ⟨"setWebsite", [⟨"website", true, .accept, none, false⟩, quotaSpec, adminPrivateArg]⟩ ]⟩
  , ⟨"EmergencyBrake",
      [ ⟨"state", [heightSpec]⟩
      , ⟨"setState", [stateArg, quotaSpec, adminPrivateArg]⟩ ]⟩ ]

def findGroup (g : String) : Option GroupSpec :=
  contract_command.find? fun gs => gs.name == g

def findOp (g o : String) : Option OpSpec :=
  (findGroup g).bind fun gs => gs.ops.find? fun os => os.name == o

/-- A (group, operation) path is reachable from the registry. -/
def registered (g o : String) : Bool :=
  (findOp g o).isSome

/-! ## CLI argument matching (the validation layer)

`contract_command` hands the declared schema to the CLI library, which on an
invocation rejects unknown flags, rejects repeated non-multiple flags, runs
each attached validator on each provided value, enforces required flags, and
fills in declared default values.  The resolved matches map each declared
argument name to the list of provided values (or its default). -/

/-- All values provided for flag `n`, in order. -/
def providedValues (provided : List (String × String)) (n : String) : List String :=
  (provided.filter fun p => p.1 == n).map fun p => p.2

def findSpec (specs : List ArgSpec) (n : String) : Option ArgSpec :=
  specs.find? fun s => s.name == n

/-- A provided pair names a declared flag. -/
def declaredOk (specs : List ArgSpec) (p : String × String) : Bool :=
  (findSpec specs p.1).isSome

/-- A provided pair passes the validator attached to its flag. -/
def validOk (specs : List ArgSpec) (p : String × String) : Bool :=
  match findSpec specs p.1 with
  | none => false
  | some s =>
    match runValidator s.validator p.2 with
    | .ok _ => true
    | .error _ => false

/-- Resolved matches: for each declared argument, its provided values, or its
default value when absent; arguments absent without a default get no entry. -/
def resolveArgs (specs : List ArgSpec) (provided : List (String × String)) :
    List (String × List String) :=
  specs.filterMap fun s =>
    match providedValues provided s.name with
    | [] => s.defaultVal.map fun d => (s.name, [d])
    | vs => some (s.name, vs)

/-- The validation performed before the processor runs: unknown flags,
validators, required flags, repeated non-multiple flags. -/
def validateArgs (specs : List ArgSpec) (provided : List (String × String)) :
    Except String (List (String × List String)) :=
  if !(provided.all fun p => declaredOk specs p) then
    .error "unexpected argument"
  else if !(provided.all fun p => validOk specs p) then
    .error "invalid value for argument"
  else if !(specs.all fun s => !s.required || !(providedValues provided s.name).isEmpty) then
    .error "missing required argument"
  else if !(specs.all fun s => s.multiple || (providedValues provided s.name).length ≤ 1) then
    .error "argument used more than once"
  else
    .ok (resolveArgs specs provided)

/-- `m.value_of(n)`: the first value recorded for `n`, if any. -/
def valueOf (args : List (String × List String)) (n : String) : Option String :=
  match args.find? fun a => a.1 == n with
  | some (_, v :: _) => some v
  | _ => none

/-- `m.values_of(n)`: all values recorded for `n`, if any. -/
def valuesOf (args : List (String × List String)) (n : String) : Option (List String) :=
  (args.find? fun a => a.1 == n).map fun a => a.2

/-! ## The dispatcher state and outcome types -/

/-- Process-wide configuration (`GlobalConfig`): the debug and color switches,
the hashing-algorithm selection (`blake2b`), and the last-output state written
by `set_output`. -/
structure GlobalConfig where
  debug : Bool
  color : Bool
  blake2b : Bool
  output : Option String
  deriving DecidableEq, Repr

/-- The error outcomes of an invocation, distinguished by kind. -/
inductive ProcErr where
  /-- An unmatched (group, operation) path: `return Err(usage)` in the source. -/
  | usageErr (usage : String)
  /-- A `?`-propagated parse failure inside the processor. -/
  | parseErr (msg : String)
  /-- A transport or contract error surfaced from the facade call. -/
  | facadeErr (msg : String)
  /-- The CLI validation layer rejected the invocation before the processor ran. -/
  | validationErr (msg : String)
  deriving DecidableEq, Repr

/-- A step of the processor body: a value, an early `Err` return, or a Rust
panic (a failing `unwrap`). -/
inductive Step (α : Type) where
  | ok (a : α)
  | errored (e : ProcErr)
  | panicked (msg : String)
  deriving DecidableEq, Repr

def Step.bind {α β : Type} : Step α → (α → Step β) → Step β
  | .ok a, f => f a
  | .errored e, _ => .errored e
  | .panicked msg, _ => .panicked msg

instance : Monad Step where
  pure := Step.ok
  bind := Step.bind

/-- `Option::unwrap` on a fetched argument value. -/
def unwrapStr (o : Option String) : Step String :=
  match o with
  | some v => .ok v
  | none => .panicked "called Option unwrap on a None value"

/-- `Option::unwrap` on a fetched multiple-argument value list. -/
def unwrapVals (o : Option (List String)) : Step (List String) :=
  match o with
  | some v => .ok v
  | none => .panicked "called Option unwrap on a None value"

/-- The `?` operator on a `Result<_, String>`. -/
def tryParse {α : Type} (r : Except String α) : Step α :=
  match r with
  | .ok a => .ok a
  | .error e => .errored (.parseErr e)

/-- `m.value_of("quota").map(|quota| parse_u64(quota).unwrap())`. -/
def mapU64 (o : Option String) : Step (Option Nat) :=
  match o with
  | none => .ok none
  | some s =>
    match parse_u64 s with
    | .ok n => .ok (some n)
    | .error _ => .panicked "called Result unwrap on an Err value"

/-- An argument passed positionally to a facade method. -/
inductive CallArg where
  /-- A string slice parameter (addresses, names, raw list strings). -/
  | str (s : String)
  /-- An `Option<&str>` parameter (block heights). -/
  | optStr (o : Option String)
  /-- A `u64` parameter (quota limits). -/
  | num (n : Nat)
  /-- An `Option<u64>` parameter (the quota override). -/
  | optNum (o : Option Nat)
  /-- A `bool` parameter (the blake2b selection, the emergency-brake state). -/
  | boolArg (b : Bool)
  /-- A `Vec<&str>` parameter (the batch transaction codes). -/
  | strList (l : List String)
  deriving DecidableEq, Repr

/-- One facade method invocation: the facade (contract group), the method
name, and its positional arguments. -/
structure FacadeCall where
  facade : String
  method : String
  args : List CallArg
  deriving DecidableEq, Repr

/-- What a dispatch branch produces before the facade call is issued: the
private key installed into the client (for write operations), and the single
facade call to issue. -/
structure BranchOut where
  key : Option String
  call : FacadeCall
  deriving DecidableEq, Repr

/-- `m.usage()` of a group-level matches value. -/
def usageOf (g : String) : String := "USAGE: cita-cli scm " ++ g

/-- `sub_matches.usage()`: the top-level usage hint. -/
def topUsage : String := "USAGE: cita-cli scm"

/-- Modelled from the spec: `blake2b(m, config)` resolves the hashing
algorithm choice from global configuration (two supported schemes, selected
once per process); the helper itself lives in the `cli` module, missing
from `src/`. -/
def blake2b (cfg : GlobalConfig) : Bool := cfg.blake2b

/-- `m.value_of(flag).unwrap()` followed by `parse_privkey(..)?`, the pattern
used for every `client.set_private_key(..)` call in the processor. -/
def readKey (args : List (String × List String)) (flag : String) : Step String := do
  let k ← unwrapStr (valueOf args flag)
  tryParse (parse_privkey k)

/-- `m.value_of("stake").map(|stake| parse_u64(stake).unwrap().to_string()).unwrap()`. -/
def mapU64Str (o : Option String) : Step String :=
  match o with
  | none => .panicked "called Option unwrap on a None value"
  | some s =>
    match parse_u64 s with
    | .ok n => .ok (toString n)
    | .error _ => .panicked "called Result unwrap on an Err value"

/-- `m.value_of("state").map(|state| state.parse::<bool>().unwrap()).unwrap()`. -/
def mapBool (o : Option String) : Step Bool :=
  match o with
  | none => .panicked "called Option unwrap on a None value"
  | some s =>
    match parseBoolRust s with
    | some b => .ok b
    | none => .panicked "called Result unwrap on an Err value"

/-- A parsed command path with its resolved argument matches. -/
structure Invocation where
  group : String
  op : String
  args : List (String × List String)
  deriving DecidableEq, Repr

/-- The body of `contract_processor`: the nested match on the (group,
operation) path, each branch fetching its parameters exactly as in the
source and producing the key to install plus the single facade call, or an
early usage-error return, or a panic from a failing `unwrap`. -/
def dispatchCommand (g o : String) (m : List (String × List String))
    (cfg : GlobalConfig) : Step BranchOut :=
  match g with
  | "NodeManager" =>
    match o with
    | "listNode" =>
      pure ⟨none, "NodeManager", "get_authorities", [.optStr (valueOf m "height")]⟩
    | "listStake" =>
      pure ⟨none, "NodeManager", "list_stake", [.optStr (valueOf m "height")]⟩
    | "getStatus" => do
      let address ← unwrapStr (valueOf m "address")
      pure ⟨none, "NodeManager", "node_status", [.str address, .optStr (valueOf m "height")]⟩
    | "deleteNode" => do
      let key ← readKey m "admin-private"
      let address ← unwrapStr (valueOf m "address")
      let quota ← mapU64 (valueOf m "quota")
      pure ⟨some key, "NodeManager", "downgrade_consensus_node",
        [.str address, .optNum quota, .boolArg (blake2b cfg)]⟩
    | "approveNode" => do
      let key ← readKey m "admin-private"
      let address ← unwrapStr (valueOf m "address")
      let quota ← mapU64 (valueOf m "quota")
      pure ⟨some key, "NodeManager", "approve_node",
        [.str address, .optNum quota, .boolArg (blake2b cfg)]⟩
    | "setStake" => do
      let key ← readKey m "admin-private"
      let address ← unwrapStr (valueOf m "address")
      let quota ← mapU64 (valueOf m "quota")
      let stake ← mapU64Str (valueOf m "stake")
      pure ⟨some key, "NodeManager", "set_stake",
        [.str address, .str stake, .optNum quota, .boolArg (blake2b cfg)]⟩
    | "stakePermillage" => do
      let address ← unwrapStr (valueOf m "address")
      pure ⟨none, "NodeManager", "stake_permillage", [.str address, .optStr (valueOf m "height")]⟩
    | _ => .errored (.usageErr (usageOf "NodeManager"))
  | "QuotaManager" =>
    match o with
    | "getBQL" => pure ⟨none, "QuotaManager", "get_bql", [.optStr (valueOf m "height")]⟩
    | "getDefaultAQL" =>
      pure ⟨none, "QuotaManager", "get_default_aql", [.optStr (valueOf m "height")]⟩
    | "getAccounts" => pure ⟨none, "QuotaManager", "get_accounts", [.optStr (valueOf m "height")]⟩
    | "getQuotas" => pure ⟨none, "QuotaManager", "get_quotas", [.optStr (valueOf m "height")]⟩
    | "getAQL" => do
      let address ← unwrapStr (valueOf m "address")
      pure ⟨none, "QuotaManager", "get_aql", [.str address, .optStr (valueOf m "height")]⟩
    | "setBQL" => do
      let key ← readKey m "admin-private"
      let quotaLimit ← do
        let s ← unwrapStr (valueOf m "quota-limit")
        tryParse (parse_u64 s)
      let quota ← mapU64 (valueOf m "quota")
      pure ⟨some key, "QuotaManager", "set_bql",
        [.num quotaLimit, .optNum quota, .boolArg (blake2b cfg)]⟩
    | "setDefaultAQL" => do
      let key ← readKey m "admin-private"
      let quotaLimit ← do
        let s ← unwrapStr (valueOf m "quota-limit")
        tryParse (parse_u64 s)
      let quota ← mapU64 (valueOf m "quota")
      pure ⟨some key, "QuotaManager", "set_default_aql",
        [.num quotaLimit, .optNum quota, .boolArg (blake2b cfg)]⟩
    | "setAQL" => do
      let key ← readKey m "admin-private"
      let quotaLimit ← do
        let s ← unwrapStr (valueOf m "quota-limit")
        tryParse (parse_u64 s)
      let address ← unwrapStr (valueOf m "address")
      let quota ← mapU64 (valueOf m "quota")
      pure ⟨some key, "QuotaManager", "set_aql",
        [.str address, .num quotaLimit, .optNum quota, .boolArg (blake2b cfg)]⟩
    | _ => .errored (.usageErr (usageOf "QuotaManager"))
  | "Group" =>
    match o with
    | "queryInfo" => do
      let address ← unwrapStr (valueOf m "address")
      pure ⟨none, "Group", "query_info", [.str address, .optStr (valueOf m "height")]⟩
    | "queryName" => do
      let address ← unwrapStr (valueOf m "address")
      pure ⟨none, "Group", "query_name", [.str address, .optStr (valueOf m "height")]⟩
    | "queryAccounts" => do
      let address ← unwrapStr (valueOf m "address")
      pure ⟨none, "Group", "query_accounts", [.str address, .optStr (valueOf m "height")]⟩
    | "queryChild" => do
      let address ← unwrapStr (valueOf m "address")
      pure ⟨none, "Group", "query_child", [.str address, .optStr (valueOf m "height")]⟩
    | "queryChildLength" => do
      let address ← unwrapStr (valueOf m "address")
      pure ⟨none, "Group", "query_child_length", [.str address, .optStr (valueOf m "height")]⟩
    | "queryParent" => do
      let address ← unwrapStr (valueOf m "address")
      pure ⟨none, "Group", "query_parent", [.str address, .optStr (valueOf m "height")]⟩
    | "inGroup" => do
      let address ← unwrapStr (valueOf m "address")
      let accountAddress ← unwrapStr (valueOf m "account")
      pure ⟨none, "Group", "in_group",
        [.str address, .str accountAddress, .optStr (valueOf m "height")]⟩
    | _ => .errored (.usageErr (usageOf "Group"))
  | "GroupManagement" =>
    match o with
    | "newGroup" => do
      let origin ← unwrapStr (valueOf m "origin")
      let name ← unwrapStr (valueOf m "name")
      let accounts ← unwrapStr (valueOf m "accounts")
      let quota ← mapU64 (valueOf m "quota")
      let key ← readKey m "private-key"
      pure ⟨some key, "GroupManagement", "new_group",
        [.str origin, .str name, .str accounts, .optNum quota, .boolArg (blake2b cfg)]⟩
    | "deleteGroup" => do
      let origin ← unwrapStr (valueOf m "origin")
      let target ← unwrapStr (valueOf m "target")
      let quota ← mapU64 (valueOf m "quota")
      let key ← readKey m "private-key"
      pure ⟨some key, "GroupManagement", "delete_group",
        [.str origin, .str target, .optNum quota, .boolArg (blake2b cfg)]⟩
    | "updateGroupName" => do
      let origin ← unwrapStr (valueOf m "origin")
      let target ← unwrapStr (valueOf m "target")
      let name ← unwrapStr (valueOf m "name")
      let quota ← mapU64 (valueOf m "quota")
      let key ← readKey m "private-key"
      pure ⟨some key, "GroupManagement", "update_group_name",
        [.str origin, .str target, .str name, .optNum quota, .boolArg (blake2b cfg)]⟩
    | "addAccounts" => do
      let origin ← unwrapStr (valueOf m "origin")
      let target ← unwrapStr (valueOf m "target")
      let accounts ← unwrapStr (valueOf m "accounts")
      let quota ← mapU64 (valueOf m "quota")
      let key ← readKey m "private-key"
      pure ⟨some key, "GroupManagement", "add_accounts",
        [.str origin, .str target, .str accounts, .optNum quota, .boolArg (blake2b cfg)]⟩
    | "deleteAccounts" => do
      let origin ← unwrapStr (valueOf m "origin")
      let target ← unwrapStr (valueOf m "target")
      let accounts ← unwrapStr (valueOf m "accounts")
      let quota ← mapU64 (valueOf m "quota")
      let key ← readKey m "private-key"
      pure ⟨some key, "GroupManagement", "delete_accounts",
        [.str origin, .str target, .str accounts, .optNum quota, .boolArg (blake2b cfg)]⟩
    | "checkScope" => do
      let origin ← unwrapStr (valueOf m "origin")
      let target ← unwrapStr (valueOf m "target")
      pure ⟨none, "GroupManagement", "check_scope",
        [.str origin, .str target, .optStr (valueOf m "height")]⟩
    | "queryGroups" =>
      pure ⟨none, "GroupManagement", "query_groups", [.optStr (valueOf m "height")]⟩
    | _ => .errored (.usageErr (usageOf "GroupManagement"))
  | "Role" =>
    match o with
    | "queryRole" => do
      let address ← unwrapStr (valueOf m "address")
      pure ⟨none, "Role", "query_role", [.str address, .optStr (valueOf m "height")]⟩
    | "queryName" => do
      let address ← unwrapStr (valueOf m "address")
      pure ⟨none, "Role", "query_name", [.str address, .optStr (valueOf m "height")]⟩
    | "queryPermissions" => do
      let address ← unwrapStr (valueOf m "address")
      pure ⟨none, "Role", "query_permissions", [.str address, .optStr (valueOf m "height")]⟩
    | "lengthOfPermissions" => do
      let address ← unwrapStr (valueOf m "address")
      pure ⟨none, "Role", "length_of_permissions", [.str address, .optStr (valueOf m "height")]⟩
    | "inPermissions" => do
      let address ← unwrapStr (valueOf m "address")
      let permission ← unwrapStr (valueOf m "permission")
      pure ⟨none, "Role", "in_permissions",
        [.str address, .str permission, .optStr (valueOf m "height")]⟩
    | _ => .errored (.usageErr (usageOf "Role"))
  | "RoleManagement" =>
    match o with
    | "newRole" => do
      let name ← unwrapStr (valueOf m "name")
      let permissions ← unwrapStr (valueOf m "permissions")
      let quota ← mapU64 (valueOf m "quota")
      let key ← readKey m "private-key"
      pure ⟨some key, "RoleManagement", "new_role",
        [.str name, .str permissions, .optNum quota, .boolArg (blake2b cfg)]⟩
    | "deleteRole" => do
      let account ← unwrapStr (valueOf m "account")
      let role ← unwrapStr (valueOf m "role")
      let quota ← mapU64 (valueOf m "quota")
      let key ← readKey m "private-key"
      pure ⟨some key, "RoleManagement", "set_role",
        [.str account, .str role, .optNum quota, .boolArg (blake2b cfg)]⟩
    | "cancelRole" => do
      let account ← unwrapStr (valueOf m "account")
      let role ← unwrapStr (valueOf m "role")
      let quota ← mapU64 (valueOf m "quota")
      let key ← readKey m "private-key"
      pure ⟨some key, "RoleManagement", "cancel_role",
        [.str account, .str role, .optNum quota, .boolArg (blake2b cfg)]⟩
    | "clearRole" => do
      let account ← unwrapStr (valueOf m "account")
      let quota ← mapU64 (valueOf m "quota")
      let key ← readKey m "private-key"
      pure ⟨some key, "RoleManagement", "clear_role",
        [.str account, .optNum quota, .boolArg (blake2b cfg)]⟩
    | "queryRoles" => do
      let account ← unwrapStr (valueOf m "account")
      pure ⟨none, "RoleManagement", "query_roles", [.str account, .optStr (valueOf m "height")]⟩
    | "queryAccounts" => do
      let role ← unwrapStr (valueOf m "address")
      pure ⟨none, "RoleManagement", "query_accounts", [.str role, .optStr (valueOf m "height")]⟩
    | _ => .errored (.usageErr (usageOf "RoleManagement"))
  | "Authorization" =>
    match o with
    | "queryPermissions" => do
      let account ← unwrapStr (valueOf m "account")
      pure ⟨none, "Authorization", "query_permissions",
        [.str account, .optStr (valueOf m "height")]⟩
    | "queryAccounts" => do
      let permission ← unwrapStr (valueOf m "permission")
      pure ⟨none, "Authorization", "query_accounts",
        [.str permission, .optStr (valueOf m "height")]⟩
    | "queryAllAccounts" =>
      pure ⟨none, "Authorization", "query_all_accounts", [.optStr (valueOf m "height")]⟩
    | "checkResource" => do
      let account ← unwrapStr (valueOf m "account")
      let contract ← unwrapStr (valueOf m "contract")
      let functionHash ← unwrapStr (valueOf m "function-hash")
      pure ⟨none, "Authorization", "check_resource",
        [.str account, .str contract, .str functionHash, .optStr (valueOf m "height")]⟩
    | "checkPermission" => do
      let account ← unwrapStr (valueOf m "account")
      let permission ← unwrapStr (valueOf m "permission")
      pure ⟨none, "Authorization", "check_permission",
        [.str account, .str permission, .optStr (valueOf m "height")]⟩
    | _ => .errored (.usageErr (usageOf "Authorization"))
  | "Permission" =>
    match o with
    | "inPermission" => do
      let permission ← unwrapStr (valueOf m "permission")
      let contract ← unwrapStr (valueOf m "contract")
      let functionHash ← unwrapStr (valueOf m "function-hash")
      pure ⟨none, "Permission", "in_permission",
        [.str permission, .str contract, .str functionHash, .optStr (valueOf m "height")]⟩
    | "queryInfo" => do
      let permission ← unwrapStr (valueOf m "permission")
      pure ⟨none, "Permission", "query_info", [.str permission, .optStr (valueOf m "height")]⟩
    | "queryName" => do
      let permission ← unwrapStr (valueOf m "permission")
      pure ⟨none, "Permission", "query_name", [.str permission, .optStr (valueOf m "height")]⟩
    | "queryResource" => do
      let permission ← unwrapStr (valueOf m "permission")
      pure ⟨none, "Permission", "query_resource", [.str permission, .optStr (valueOf m "height")]⟩
    | _ => .errored (.usageErr (usageOf "Permission"))
  | "PermissionManagement" =>
    match o with
    | "newPermission" => do
      let name ← unwrapStr (valueOf m "name")
      let contracts ← unwrapStr (valueOf m "contracts")
      let functionHashes ← unwrapStr (valueOf m "function-hashes")
      let quota ← mapU64 (valueOf m "quota")
      let key ← readKey m "private-key"
      pure ⟨some key, "PermissionManagement", "new_permission",
        [.str name, .str contracts, .str functionHashes, .optNum quota, .boolArg (blake2b cfg)]⟩
    | "deletePermission" => do
      let permission ← unwrapStr (valueOf m "permission")
      let quota ← mapU64 (valueOf m "quota")
      let key ← readKey m "private-key"
      pure ⟨some key, "PermissionManagement", "delete_permission",
        [.str permission, .optNum quota, .boolArg (blake2b cfg)]⟩
    | "updatePermissionName" => do
      let permission ← unwrapStr (valueOf m "permission")
      let name ← unwrapStr (valueOf m "name")
      let quota ← mapU64 (valueOf m "quota")
      let key ← readKey m "private-key"
      pure ⟨some key, "PermissionManagement", "update_permission_name",
        [.str permission, .str name, .optNum quota, .boolArg (blake2b cfg)]⟩
    | "addResources" => do
      let permission ← unwrapStr (valueOf m "permission")
      let contracts ← unwrapStr (valueOf m "contracts")
      let functionHashes ← unwrapStr (valueOf m "function-hashes")
      let quota ← mapU64 (valueOf m "quota")
      let key ← readKey m "private-key"
      pure ⟨some key, "PermissionManagement", "add_resources",
        [.str permission, .str contracts, .str functionHashes, .optNum quota,
         .boolArg (blake2b cfg)]⟩
    | "deleteResources" => do
      let permission ← unwrapStr (valueOf m "permission")
      let contracts ← unwrapStr (valueOf m "contracts")
      let functionHashes ← unwrapStr (valueOf m "function-hashes")
      let quota ← mapU64 (valueOf m "quota")
      let key ← readKey m "private-key"
      pure ⟨some key, "PermissionManagement", "delete_resources",
        [.str permission, .str contracts, .str functionHashes, .optNum quota,
         .boolArg (blake2b cfg)]⟩
    | "setAuthorization" => do
      let permission ← unwrapStr (valueOf m "permission")
      let account ← unwrapStr (valueOf m "account")
      let quota ← mapU64 (valueOf m "quota")
      let key ← readKey m "private-key"
      pure ⟨some key, "PermissionManagement", "set_authorization",
        [.str account, .str permission, .optNum quota, .boolArg (blake2b cfg)]⟩
    | "setAuthorizations" => do
      let permissions ← unwrapStr (valueOf m "permissions")
      let account ← unwrapStr (valueOf m "account")
      let quota ← mapU64 (valueOf m "quota")
      let key ← readKey m "private-key"
      pure ⟨some key, "PermissionManagement", "set_authorizations",
        [.str account, .str permissions, .optNum quota, .boolArg (blake2b cfg)]⟩
    | "cancelAuthorization" => do
      let permission ← unwrapStr (valueOf m "permission")
      let account ← unwrapStr (valueOf m "account")
      let quota ← mapU64 (valueOf m "quota")
      let key ← readKey m "private-key"
      pure ⟨some key, "PermissionManagement", "cancel_authorization",
        [.str account, .str permission, .optNum quota, .boolArg (blake2b cfg)]⟩
    | "cancelAuthorizations" => do
      let permissions ← unwrapStr (valueOf m "permissions")
      let account ← unwrapStr (valueOf m "account")
      let quota ← mapU64 (valueOf m "quota")
      let key ← readKey m "private-key"
      pure ⟨some key, "PermissionManagement", "cancel_authorizations",
        [.str account, .str permissions, .optNum quota, .boolArg (blake2b cfg)]⟩
    | "clearAuthorization" => do
      let account ← unwrapStr (valueOf m "account")
      let quota ← mapU64 (valueOf m "quota")
      let key ← readKey m "private-key"
      pure ⟨some key, "PermissionManagement", "clear_authorization",
        [.str account, .optNum quota, .boolArg (blake2b cfg)]⟩
    | _ => .errored (.usageErr (usageOf "PermissionManagement"))
  | "AdminManagement" =>
    match o with
    | "admin" => pure ⟨none, "AdminManagement", "admin", [.optStr (valueOf m "height")]⟩
    | "isAdmin" => do
      let address ← unwrapStr (valueOf m "address")
      pure ⟨none, "AdminManagement", "is_admin", [.str address, .optStr (valueOf m "height")]⟩
    | "update" => do
      let key ← readKey m "admin-private"
      let quota ← mapU64 (valueOf m "quota")
      let address ← unwrapStr (valueOf m "address")
      pure ⟨some key, "AdminManagement", "add_admin",
        [.str address, .optNum quota, .boolArg (blake2b cfg)]⟩
    | _ => .errored (.usageErr (usageOf "AdminManagement"))
  | "BatchTx" =>
    match o with
    | "multiTxs" => do
      let key ← readKey m "private-key"
      let quota ← mapU64 (valueOf m "quota")
      let txs ← unwrapVals (valuesOf m "tx-code")
      pure ⟨some key, "BatchTx", "multi_transactions",
        [.strList txs, .optNum quota, .boolArg (blake2b cfg)]⟩
    | _ => .errored (.usageErr (usageOf "BatchTx"))
  | "SysConfig" =>
    match o with
    | "getChainOwner" =>
      pure ⟨none, "SysConfig", "get_chain_owner", [.optStr (valueOf m "height")]⟩
    | "getDelayBlockNumber" =>
      pure ⟨none, "SysConfig", "get_delay_block_number", [.optStr (valueOf m "height")]⟩
    | "getFeeBackPlatformCheck" =>
      pure ⟨none, "SysConfig", "get_feeback_platform_check", [.optStr (valueOf m "height")]⟩
    | "getEconomicalModel" =>
      pure ⟨none, "SysConfig", "get_economical_model", [.optStr (valueOf m "height")]⟩
    | "getPermissionCheck" =>
      pure ⟨none, "SysConfig", "get_permission_check", [.optStr (valueOf m "height")]⟩
    | "getQuotaCheck" =>
      pure ⟨none, "SysConfig", "get_quota_check", [.optStr (valueOf m "height")]⟩
    | "setChainName" => do
      let key ← readKey m "admin-private"
      let name ← unwrapStr (valueOf m "chain-name")
      let quota ← mapU64 (valueOf m "quota")
      pure ⟨some key, "SysConfig", "set_chain_name",
        [.str name, .optNum quota, .boolArg (blake2b cfg)]⟩
    | "setOperator" => do
      let key ← readKey m "admin-private"
      let quota ← mapU64 (valueOf m "quota")
      let operator ← unwrapStr (valueOf m "operator")
      pure ⟨some key, "SysConfig", "set_operator",
        [.str operator, .optNum quota, .boolArg (blake2b cfg)]⟩
    | "setWebsite" => do
      let key ← readKey m "admin-private"
      let quota ← mapU64 (valueOf m "quota")
      let website ← unwrapStr (valueOf m "website")
      pure ⟨some key, "SysConfig", "set_website",
        [.str website, .optNum quota, .boolArg (blake2b cfg)]⟩
    | _ => .errored (.usageErr (usageOf "SysConfig"))
  | "EmergencyBrake" =>
    match o with
    | "state" => pure ⟨none, "EmergencyBrake", "state", [.optStr (valueOf m "height")]⟩
    | "setState" => do
      let key ← readKey m "admin-private"
      let quota ← mapU64 (valueOf m "quota")
      let state ← mapBool (valueOf m "state")
      pure ⟨some key, "EmergencyBrake", "set_state",
        [.boolArg state, .optNum quota, .boolArg (blake2b cfg)]⟩
    | _ => .errored (.usageErr topUsage)
  | _ => .errored (.usageErr topUsage)

/-- The outcome of one full invocation. -/
inductive CmdOutcome where
  | success (response : String)
  | failure (e : ProcErr)
  | panicked (msg : String)
  deriving DecidableEq, Repr

/-- The observable result of `contract_processor`: the outcome, the private
keys installed into the client context (in order), the facade calls issued
(in order), and the resulting global configuration. -/
structure RunResult where
  outcome : CmdOutcome
  keysSet : List String
  calls : List FacadeCall
  cfg : GlobalConfig
  deriving Repr

/-- `contract_processor`: run the dispatch body, issue the facade call
through the oracle `facade`, and on success print the response and record it
into the last-output state (`set_output`); on any error return it and leave
the configuration untouched. -/
def contract_processor (facade : FacadeCall → Except String String)
    (inv : Invocation) (cfg : GlobalConfig) : RunResult :=
  match dispatchCommand inv.group inv.op inv.args cfg with
  | .errored e => ⟨.failure e, [], [], cfg⟩
  | .panicked msg => ⟨.panicked msg, [], [], cfg⟩
  | .ok b =>
    match facade b.call with
    | .error err => ⟨.failure (.facadeErr err), b.key.toList, [b.call], cfg⟩
    | .ok resp => ⟨.success resp, b.key.toList, [b.call], { cfg with output := some resp }⟩

/-- A raw command-line invocation: the command path plus the provided flags. -/
structure RawInvocation where
  group : String
  op : String
  provided : List (String × String)
  deriving DecidableEq, Repr

/-- The full pipeline: look the path up in the schema registry, validate and
resolve the provided flags against its argument specifications, then run
`contract_processor` on the resolved matches. -/
def runScm (facade : FacadeCall → Except String String)
    (rinv : RawInvocation) (cfg : GlobalConfig) : RunResult :=
  match findOp rinv.group rinv.op with
  | none => ⟨.failure (.usageErr topUsage), [], [], cfg⟩
  | some os =>
    match validateArgs os.args rinv.provided with
    | .error e => ⟨.failure (.validationErr e), [], [], cfg⟩
    | .ok resolved => contract_processor facade ⟨rinv.group, rinv.op, resolved⟩ cfg

/-! ## Concrete sample inputs used by counterexamples and witnesses -/

def sampleAddress : String := "0x0000000000000000000000000000000000000001"

def sampleAddress2 : String := "0x0000000000000000000000000000000000000002"

def sampleKey : String :=
  "0x1111111111111111111111111111111111111111111111111111111111111111"

def sampleCfg : GlobalConfig := ⟨false, true, false, none⟩

/-- An oracle standing for facades whose every call succeeds. -/
def sampleOracle : FacadeCall → Except String String := fun _ => .ok "0x0"

/-! ## Step lemmas -/

theorem Step.bind_ok_iff {α β : Type} {s : Step α} {f : α → Step β} {b : β} :
    s >>= f = .ok b ↔ ∃ a, s = .ok a ∧ f a = .ok b := by
  cases s with
  | ok a => simp [Bind.bind, Step.bind]
  | errored e => simp [Bind.bind, Step.bind]
  | panicked msg => simp [Bind.bind, Step.bind]

theorem Step.pure_def {α : Type} (a : α) : (pure a : Step α) = .ok a := rfl

/-- Every value a step can succeed with satisfies `P`. -/
structure Step.AllOk {α : Type} (P : α → Prop) (s : Step α) : Prop where
  run : ∀ a, s = .ok a → P a

theorem Step.allOk_errored {α : Type} {P : α → Prop} {e : ProcErr} :
    Step.AllOk P (.errored e) :=
  ⟨fun a h => absurd h (by simp)⟩

theorem Step.allOk_pure {α : Type} {P : α → Prop} {x : α} (h : P x) :
    Step.AllOk P (pure x) :=
  ⟨fun a ha => by
    obtain rfl : x = a := by simpa [Step.pure_def] using ha
    exact h⟩

theorem Step.allOk_bind {α β : Type} {P : β → Prop} {s : Step α} {f : α → Step β}
    (h : ∀ a, s = .ok a → Step.AllOk P (f a)) : Step.AllOk P (s >>= f) :=
  ⟨fun b hb => by
    cases s with
    | ok a => exact (h a rfl).run b (by simpa [Bind.bind, Step.bind] using hb)
    | errored e => simp [Bind.bind, Step.bind] at hb
    | panicked msg => simp [Bind.bind, Step.bind] at hb⟩

/-! ## Claim theorems -/

/-- C1: the schema registry declares the RoleManagement operations
updateRoleName, addPermissions, deletePermissions and setRole, yet dispatching
each of them falls through to the unmatched-path usage-error branch of
`contract_processor` — the registry and the dispatcher disagree, refuting the
claim that every reachable path has a dispatch branch. -/
theorem c1_roleManagement_paths_fall_through :
    registered "RoleManagement" "updateRoleName" = true ∧
    registered "RoleManagement" "addPermissions" = true ∧
    registered "RoleManagement" "deletePermissions" = true ∧
    registered "RoleManagement" "setRole" = true ∧
    (runScm sampleOracle
        ⟨"RoleManagement", "updateRoleName",
          [("address", sampleAddress), ("name", "n"), ("private-key", sampleKey)]⟩
        sampleCfg).outcome = .failure (.usageErr (usageOf "RoleManagement")) ∧
    (runScm sampleOracle
        ⟨"RoleManagement", "updateRoleName",
          [("address", sampleAddress), ("name", "n"), ("private-key", sampleKey)]⟩
        sampleCfg).calls = [] := by
  decide

/-- C2: the dispatcher fetches parameter names that the corresponding schema
entries never declare: Group inGroup fetches `account` and RoleManagement
deleteRole fetches `account` and `role`, so both panic on an invocation that
passed schema validation, refuting the claim that parameter resolution never
panics after validation. -/
theorem c2_dispatch_fetches_undeclared_parameters :
    (runScm sampleOracle
        ⟨"Group", "inGroup", [("address", sampleAddress)]⟩ sampleCfg).outcome
      = .panicked "called Option unwrap on a None value" ∧
    (runScm sampleOracle
        ⟨"RoleManagement", "deleteRole",
          [("address", sampleAddress), ("private-key", sampleKey)]⟩ sampleCfg).outcome
      = .panicked "called Option unwrap on a None value" := by
  decide

/-- C9: `contract_processor` writes the response into the last-output state
exactly on success, overwriting whatever was there; on any failure or panic
the configuration (and so the last-output state) is returned unchanged. -/
theorem c9_set_output_exactly_on_success (facade : FacadeCall → Except String String)
    (inv : Invocation) (cfg : GlobalConfig) :
    (∃ resp, (contract_processor facade inv cfg).outcome = .success resp ∧
        (contract_processor facade inv cfg).cfg = { cfg with output := some resp }) ∨
    ((∀ resp, (contract_processor facade inv cfg).outcome ≠ .success resp) ∧
        (contract_processor facade inv cfg).cfg = cfg) := by
  cases hd : dispatchCommand inv.group inv.op inv.args cfg with
  | ok b =>
    cases hf : facade b.call with
    | ok resp => exact Or.inl ⟨resp, by simp [contract_processor, hd, hf]⟩
    | error err => exact Or.inr (by simp [contract_processor, hd, hf])
  | errored e => exact Or.inr (by simp [contract_processor, hd])
  | panicked msg => exact Or.inr (by simp [contract_processor, hd])

/-- Unregistered command paths reach a usage-error arm of the dispatch body. -/
theorem dispatch_unregistered (g o : String) (m : List (String × List String))
    (cfg : GlobalConfig) (h : registered g o = false) :
    ∃ u, dispatchCommand g o m cfg = .errored (.usageErr u) := by
  unfold dispatchCommand
  split
  all_goals try exact ⟨_, rfl⟩
  all_goals split
  all_goals try exact ⟨_, rfl⟩
  all_goals exact absurd h (by decide)

/-- C4: for every (group, operation) pair that is not in the registry —
unknown group, or known group with unknown operation — `contract_processor`
fails with the same usage-error kind, installs no key, and invokes no facade
method, so the error kind does not distinguish a partial match from a total
miss. -/
theorem c4_unknown_path_uniform_usage_error (facade : FacadeCall → Except String String)
    (g o : String) (args : List (String × List String)) (cfg : GlobalConfig)
    (h : registered g o = false) :
    ∃ u, contract_processor facade ⟨g, o, args⟩ cfg =
      ⟨.failure (.usageErr u), [], [], cfg⟩ := by
  obtain ⟨u, hu⟩ := dispatch_unregistered g o args cfg h
  exact ⟨u, by simp [contract_processor, hu]⟩

/-- C4 witness: a known group with an unknown operation, at concrete inputs. -/
theorem c4_unknown_path_uniform_usage_error_witness :
    registered "NodeManager" "frobnicate" = false ∧
    ∃ u, contract_processor sampleOracle ⟨"NodeManager", "frobnicate", []⟩ sampleCfg =
      ⟨.failure (.usageErr u), [], [], sampleCfg⟩ :=
  ⟨by decide,
   c4_unknown_path_uniform_usage_error sampleOracle "NodeManager" "frobnicate" [] sampleCfg
     (by decide)⟩

/-- When no `quota` value is in the matches, every dispatch branch produces a
facade call whose quota-override argument is `none`. -/
theorem dispatch_quota_none (g o : String) (m : List (String × List String))
    (cfg : GlobalConfig) (hq : valueOf m "quota" = none) :
    Step.AllOk (fun b => ∀ q, CallArg.optNum q ∈ b.call.args → q = none)
      (dispatchCommand g o m cfg) := by
  unfold dispatchCommand
  split
  all_goals try exact Step.allOk_errored
  all_goals split
  all_goals try exact Step.allOk_errored
  all_goals
    repeat first
      | (apply Step.allOk_pure
         intro q hmem
         simp_all [mapU64, hq])
      | (apply Step.allOk_bind; intro _ _)

/-- C7: for every invocation whose matches carry no `quota` value, every
facade call issued by `contract_processor` passes `none` as the quota
override — never zero or an invented value — leaving the default to the
facade. -/
theorem c7_absent_quota_passes_none (facade : FacadeCall → Except String String)
    (inv : Invocation) (cfg : GlobalConfig)
    (hq : valueOf inv.args "quota" = none) :
    ∀ c ∈ (contract_processor facade inv cfg).calls,
      ∀ q, CallArg.optNum q ∈ c.args → q = none := by
  intro c hc q hqmem
  cases hd : dispatchCommand inv.group inv.op inv.args cfg with
  | ok b =>
    have hb := (dispatch_quota_none inv.group inv.op inv.args cfg hq).run b hd
    cases hf : facade b.call with
    | ok resp =>
      simp [contract_processor, hd, hf] at hc
      exact hb q (hc ▸ hqmem)
    | error err =>
      simp [contract_processor, hd, hf] at hc
      exact hb q (hc ▸ hqmem)
  | errored e => simp [contract_processor, hd] at hc
  | panicked msg => simp [contract_processor, hd] at hc

/-- C7 witness: a write operation invoked without the quota flag, at concrete
inputs. -/
theorem c7_absent_quota_passes_none_witness :
    valueOf [("address", [sampleAddress]), ("admin-private", [sampleKey])] "quota" = none ∧
    ∀ c ∈ (contract_processor sampleOracle
        ⟨"NodeManager", "approveNode",
          [("address", [sampleAddress]), ("admin-private", [sampleKey])]⟩ sampleCfg).calls,
      ∀ q, CallArg.optNum q ∈ c.args → q = none :=
  ⟨by decide,
   c7_absent_quota_passes_none sampleOracle
     ⟨"NodeManager", "approveNode",
       [("address", [sampleAddress]), ("admin-private", [sampleKey])]⟩ sampleCfg (by decide)⟩

/-- C3: a QuotaManager setAQL invocation with a valid address, a valid
quota-limit, a valid admin key and no quota flag installs exactly the parsed
key into the client context and issues exactly one `set_aql` call carrying the
resolved address, the resolved quota-limit numeral, and no quota override. -/
theorem c3_setAQL_installs_key_and_issues_one_call
    (facade : FacadeCall → Except String String) (cfg : GlobalConfig)
    (a ql k key : String) (n : Nat)
    (ha : parse_address a = .ok ())
    (hql : parse_u64 ql = .ok n)
    (hk : parse_privkey k = .ok key) :
    (runScm facade ⟨"QuotaManager", "setAQL",
        [("address", a), ("quota-limit", ql), ("admin-private", k)]⟩ cfg).keysSet = [key] ∧
    (runScm facade ⟨"QuotaManager", "setAQL",
        [("address", a), ("quota-limit", ql), ("admin-private", k)]⟩ cfg).calls =
      [⟨"QuotaManager", "set_aql",
        [.str a, .num n, .optNum none, .boolArg cfg.blake2b]⟩] := by
  have hop : findOp "QuotaManager" "setAQL" =
      some ⟨"setAQL", [quotaLimitArg, adminPrivateArg, addressArg, quotaSpec]⟩ := by
    rfl
  have hval : validateArgs [quotaLimitArg, adminPrivateArg, addressArg, quotaSpec]
      [("address", a), ("quota-limit", ql), ("admin-private", k)]
      = .ok [("quota-limit", [ql]), ("admin-private", [k]), ("address", [a])] := by
    simp [validateArgs, declaredOk, validOk, findSpec, providedValues, resolveArgs,
      runValidator, quotaLimitArg, adminPrivateArg, addressArg, quotaSpec, reqArg,
      Except.map, ha, hql, hk]
  have hdisp : dispatchCommand "QuotaManager" "setAQL"
      [("quota-limit", [ql]), ("admin-private", [k]), ("address", [a])] cfg
      = .ok ⟨some key, "QuotaManager", "set_aql",
          [.str a, .num n, .optNum none, .boolArg cfg.blake2b]⟩ := by
    simp [dispatchCommand, readKey, valueOf, unwrapStr, tryParse, mapU64, hk, hql,
      Bind.bind, Step.bind, Step.pure_def, blake2b]
  have hrun : runScm facade ⟨"QuotaManager", "setAQL",
      [("address", a), ("quota-limit", ql), ("admin-private", k)]⟩ cfg =
      contract_processor facade ⟨"QuotaManager", "setAQL",
        [("quota-limit", [ql]), ("admin-private", [k]), ("address", [a])]⟩ cfg := by
    simp [runScm, hop, hval]
  rw [hrun]
  cases hf : facade ⟨"QuotaManager", "set_aql",
      [.str a, .num n, .optNum none, .boolArg cfg.blake2b]⟩ <;>
    simp [contract_processor, hdisp, hf]

/-- C3 witness: concrete valid inputs for the setAQL scenario. -/
theorem c3_setAQL_installs_key_and_issues_one_call_witness :
    parse_address sampleAddress = .ok () ∧
    parse_u64 "1000000" = .ok 1000000 ∧
    parse_privkey sampleKey = .ok sampleKey ∧
    (runScm sampleOracle ⟨"QuotaManager", "setAQL",
        [("address", sampleAddress), ("quota-limit", "1000000"),
         ("admin-private", sampleKey)]⟩ sampleCfg).keysSet = [sampleKey] ∧
    (runScm sampleOracle ⟨"QuotaManager", "setAQL",
        [("address", sampleAddress), ("quota-limit", "1000000"),
         ("admin-private", sampleKey)]⟩ sampleCfg).calls =
      [⟨"QuotaManager", "set_aql",
        [.str sampleAddress, .num 1000000, .optNum none, .boolArg sampleCfg.blake2b]⟩] :=
  ⟨rfl, rfl, rfl,
   (c3_setAQL_installs_key_and_issues_one_call sampleOracle sampleCfg
      sampleAddress "1000000" sampleKey sampleKey 1000000 rfl rfl rfl).1,
   (c3_setAQL_installs_key_and_issues_one_call sampleOracle sampleCfg
      sampleAddress "1000000" sampleKey sampleKey 1000000 rfl rfl rfl).2⟩

/-- C6 counterexample: a comma-delimited list of two valid hex addresses is
rejected by the validator attached to `--permissions` (the fixed-length
address validator, not a hex-syntax check), so the invocation fails
validation — refuting the claim that any delimited list of hex items passes
validation wherever a validator is declared. -/
theorem c6_delimited_hex_list_fails_validation :
    parse_address (sampleAddress ++ "," ++ sampleAddress2) = .error "InvalidFormat" ∧
    (runScm sampleOracle ⟨"RoleManagement", "newRole",
        [("name", "r"), ("permissions", sampleAddress ++ "," ++ sampleAddress2),
         ("private-key", sampleKey)]⟩ sampleCfg).outcome
      = .failure (.validationErr "invalid value for argument") ∧
    (runScm sampleOracle ⟨"RoleManagement", "newRole",
        [("name", "r"), ("permissions", sampleAddress ++ "," ++ sampleAddress2),
         ("private-key", sampleKey)]⟩ sampleCfg).calls = [] :=
  ⟨rfl, by decide, by decide⟩

/-- C6 amended: list-valued parameters are passed to the facade as one raw
unsplit string; `--accounts` and `--function-hashes` carry no validator, but
`--contracts` and `--permissions` carry the fixed-length address validator,
so for them only a single 20-byte hex item passes validation. -/
theorem c6_lists_pass_through_unsplit (facade : FacadeCall → Except String String)
    (cfg : GlobalConfig) (nm perms k key : String)
    (hperm : parse_address perms = .ok ())
    (hk : parse_privkey k = .ok key) :
    ((findOp "RoleManagement" "newRole").map (fun os => findSpec os.args "permissions")
        = some (some permissionsArg) ∧ permissionsArg.validator = .addr) ∧
    ((findOp "PermissionManagement" "newPermission").map
        (fun os => findSpec os.args "contracts")
        = some (some contractsArg) ∧ contractsArg.validator = .addr) ∧
    ((findOp "PermissionManagement" "newPermission").map
        (fun os => findSpec os.args "function-hashes")
        = some (some functionHashesArg) ∧ functionHashesArg.validator = .accept) ∧
    ((findOp "GroupManagement" "newGroup").map (fun os => findSpec os.args "accounts")
        = some (some accountsArg) ∧ accountsArg.validator = .accept) ∧
    (runScm facade ⟨"RoleManagement", "newRole",
        [("name", nm), ("permissions", perms), ("private-key", k)]⟩ cfg).calls
      = [⟨"RoleManagement", "new_role",
          [.str nm, .str perms, .optNum none, .boolArg cfg.blake2b]⟩] := by
  refine ⟨⟨rfl, rfl⟩, ⟨rfl, rfl⟩, ⟨rfl, rfl⟩, ⟨rfl, rfl⟩, ?_⟩
  have hop : findOp "RoleManagement" "newRole" =
      some ⟨"newRole", [nameArg, permissionsArg, quotaSpec, privateKeyArg]⟩ := by
    rfl
  have hval : validateArgs [nameArg, permissionsArg, quotaSpec, privateKeyArg]
      [("name", nm), ("permissions", perms), ("private-key", k)]
      = .ok [("name", [nm]), ("permissions", [perms]), ("private-key", [k])] := by
    simp [validateArgs, declaredOk, validOk, findSpec, providedValues, resolveArgs,
      runValidator, nameArg, permissionsArg, quotaSpec, privateKeyArg, reqArg,
      Except.map, hperm, hk]
  have hdisp : dispatchCommand "RoleManagement" "newRole"
      [("name", [nm]), ("permissions", [perms]), ("private-key", [k])] cfg
      = .ok ⟨some key, "RoleManagement", "new_role",
          [.str nm, .str perms, .optNum none, .boolArg cfg.blake2b]⟩ := by
    simp [dispatchCommand, readKey, valueOf, unwrapStr, tryParse, mapU64, hk,
      Bind.bind, Step.bind, Step.pure_def, blake2b]
  have hrun : runScm facade ⟨"RoleManagement", "newRole",
      [("name", nm), ("permissions", perms), ("private-key", k)]⟩ cfg =
      contract_processor facade ⟨"RoleManagement", "newRole",
        [("name", [nm]), ("permissions", [perms]), ("private-key", [k])]⟩ cfg := by
    simp [runScm, hop, hval]
  rw [hrun]
  cases hf : facade ⟨"RoleManagement", "new_role",
      [.str nm, .str perms, .optNum none, .boolArg cfg.blake2b]⟩ <;>
    simp [contract_processor, hdisp, hf]

/-- C6 amended witness: a single valid address for `--permissions`, at
concrete inputs. -/
theorem c6_lists_pass_through_unsplit_witness :
    parse_address sampleAddress = .ok () ∧
    parse_privkey sampleKey = .ok sampleKey ∧
    (runScm sampleOracle ⟨"RoleManagement", "newRole",
        [("name", "r"), ("permissions", sampleAddress), ("private-key", sampleKey)]⟩
        sampleCfg).calls
      = [⟨"RoleManagement", "new_role",
          [.str "r", .str sampleAddress, .optNum none, .boolArg sampleCfg.blake2b]⟩] :=
  ⟨rfl, rfl,
   (c6_lists_pass_through_unsplit sampleOracle sampleCfg "r" sampleAddress
      sampleKey sampleKey rfl rfl).2.2.2.2⟩

/-! ## Facts extracted from a successful validation -/

theorem validateArgs_ok_resolved {specs : List ArgSpec} {p : List (String × String)}
    {r : List (String × List String)} (h : validateArgs specs p = .ok r) :
    r = resolveArgs specs p := by
  unfold validateArgs at h
  split at h
  · simp at h
  split at h
  · simp at h
  split at h
  · simp at h
  split at h
  · simp at h
  simp at h
  exact h.symm

theorem validateArgs_ok_declared {specs : List ArgSpec} {p : List (String × String)}
    {r : List (String × List String)} (h : validateArgs specs p = .ok r) :
    ∀ q ∈ p, declaredOk specs q = true := by
  unfold validateArgs at h
  split at h
  case isTrue h1 => simp at h
  rename_i h1
  intro q hq
  exact List.all_eq_true.mp (by simpa using h1) q hq

theorem validateArgs_ok_valid {specs : List ArgSpec} {p : List (String × String)}
    {r : List (String × List String)} (h : validateArgs specs p = .ok r) :
    ∀ q ∈ p, validOk specs q = true := by
  unfold validateArgs at h
  split at h
  · simp at h
  split at h
  case isTrue h2 => simp at h
  rename_i h1 h2
  intro q hq
  exact List.all_eq_true.mp (by simpa using h2) q hq

theorem validateArgs_ok_required {specs : List ArgSpec} {p : List (String × String)}
    {r : List (String × List String)} (h : validateArgs specs p = .ok r) :
    ∀ s ∈ specs, s.required = true → providedValues p s.name ≠ [] := by
  unfold validateArgs at h
  split at h
  · simp at h
  split at h
  · simp at h
  split at h
  case isTrue h3 => simp at h
  rename_i h1 h2 h3
  intro s hs hreq
  exact (by simpa using h3 :
    ∀ x ∈ specs, x.required = true → ¬providedValues p x.name = []) s hs hreq

/-- C10: the QuotaManager getAQL schema entry declares no height flag, a
supplied `--height` is rejected by validation before any facade call, and
every facade call the dispatcher issues for getAQL is a `get_aql` carrying
`none` as the height. -/
theorem c10_getAQL_declares_no_height (facade : FacadeCall → Except String String)
    (cfg : GlobalConfig) (p : List (String × String)) :
    ((findOp "QuotaManager" "getAQL").map (fun os => findSpec os.args "height")
        = some none) ∧
    ((∃ v, ("height", v) ∈ p) →
      (∃ e, (runScm facade ⟨"QuotaManager", "getAQL", p⟩ cfg).outcome
          = .failure (.validationErr e)) ∧
      (runScm facade ⟨"QuotaManager", "getAQL", p⟩ cfg).calls = []) ∧
    (∀ c ∈ (runScm facade ⟨"QuotaManager", "getAQL", p⟩ cfg).calls,
      ∃ a, c = ⟨"QuotaManager", "get_aql", [.str a, .optStr none]⟩) := by
  have hop : findOp "QuotaManager" "getAQL" = some ⟨"getAQL", [addressArg]⟩ := rfl
  refine ⟨rfl, ?_⟩
  cases hval : validateArgs [addressArg] p with
  | error e =>
    refine ⟨fun _ => ⟨⟨e, by simp [runScm, hop, hval]⟩, by simp [runScm, hop, hval]⟩, ?_⟩
    intro c hc
    simp [runScm, hop, hval] at hc
  | ok r =>
    have hres := validateArgs_ok_resolved hval
    have hdecl := validateArgs_ok_declared hval
    have hreq := validateArgs_ok_required hval
    constructor
    · rintro ⟨v, hv⟩
      have hd := hdecl ("height", v) hv
      simp [declaredOk, findSpec, addressArg, reqArg] at hd
    · have hne : providedValues p "address" ≠ [] :=
        hreq addressArg (by simp) rfl
      cases hpv : providedValues p "address" with
      | nil => exact absurd hpv hne
      | cons a as =>
        have hr : r = [("address", a :: as)] := by
          rw [hres]
          simp [resolveArgs, addressArg, reqArg, hpv]
        rw [hr] at hval
        have hdisp : dispatchCommand "QuotaManager" "getAQL" [("address", a :: as)] cfg
            = .ok ⟨none, "QuotaManager", "get_aql", [.str a, .optStr none]⟩ := by
          simp [dispatchCommand, valueOf, unwrapStr, Bind.bind, Step.bind, Step.pure_def]
        intro c hc
        cases hf : facade ⟨"QuotaManager", "get_aql", [.str a, .optStr none]⟩ <;>
          simp [runScm, hop, hval, contract_processor, hdisp, hf] at hc <;>
          exact ⟨a, hc⟩

/-- C10 witness: a getAQL invocation carrying a height flag is rejected, at
concrete inputs. -/
theorem c10_getAQL_declares_no_height_witness :
    (("height", "100") ∈ [("address", sampleAddress), ("height", "100")]) ∧
    (∃ e, (runScm sampleOracle ⟨"QuotaManager", "getAQL",
        [("address", sampleAddress), ("height", "100")]⟩ sampleCfg).outcome
      = .failure (.validationErr e)) :=
  ⟨by decide,
   ((c10_getAQL_declares_no_height sampleOracle sampleCfg
      [("address", sampleAddress), ("height", "100")]).2.1 ⟨"100", by decide⟩).1⟩

theorem mem_providedValues {p : List (String × String)} {n v : String}
    (h : v ∈ providedValues p n) : (n, v) ∈ p := by
  unfold providedValues at h
  obtain ⟨q, hq, rfl⟩ := List.mem_map.mp h
  obtain ⟨hmem, hname⟩ := List.mem_filter.mp hq
  have hn : q.1 = n := by simpa using hname
  rw [← hn]
  simpa using hmem

/-- Once lookup, validation and dispatch all succeed, the pipeline outcome is
a success or a facade error, never a panic. -/
theorem runScm_no_panic_of_dispatch_ok {facade : FacadeCall → Except String String}
    {rinv : RawInvocation} {cfg : GlobalConfig} {os : OpSpec}
    {r : List (String × List String)} {bo : BranchOut}
    (hop : findOp rinv.group rinv.op = some os)
    (hval : validateArgs os.args rinv.provided = .ok r)
    (hd : dispatchCommand rinv.group rinv.op r cfg = .ok bo) :
    ∀ msg, (runScm facade rinv cfg).outcome ≠ .panicked msg := by
  intro msg
  cases hf : facade bo.call <;> simp [runScm, hop, hval, contract_processor, hd, hf]

/-- C5: an EmergencyBrake setState invocation whose state value does not
parse as a boolean is rejected by validation before any facade call; and for
any provided flags whatsoever, the setState pipeline never panics — in
particular, once validation passed, the re-parse of the state value inside
the dispatcher cannot fail. -/
theorem c5_setState_rejects_non_boolean (facade : FacadeCall → Except String String)
    (cfg : GlobalConfig) (p : List (String × String)) :
    ((∃ v, ("state", v) ∈ p ∧ parseBoolRust v = none) →
      (∃ e, (runScm facade ⟨"EmergencyBrake", "setState", p⟩ cfg).outcome
          = .failure (.validationErr e)) ∧
      (runScm facade ⟨"EmergencyBrake", "setState", p⟩ cfg).calls = []) ∧
    (∀ msg, (runScm facade ⟨"EmergencyBrake", "setState", p⟩ cfg).outcome
        ≠ .panicked msg) := by
  have hop : findOp "EmergencyBrake" "setState"
      = some ⟨"setState", [stateArg, quotaSpec, adminPrivateArg]⟩ := rfl
  cases hval : validateArgs [stateArg, quotaSpec, adminPrivateArg] p with
  | error e =>
    refine ⟨fun _ => ⟨⟨e, by simp [runScm, hop, hval]⟩, by simp [runScm, hop, hval]⟩, ?_⟩
    intro msg
    simp [runScm, hop, hval]
  | ok r =>
    have hres := validateArgs_ok_resolved hval
    have hvalid := validateArgs_ok_valid hval
    have hreq := validateArgs_ok_required hval
    constructor
    · rintro ⟨v, hv, hb⟩
      have hvv := hvalid ("state", v) hv
      simp [validOk, findSpec, stateArg, quotaSpec, adminPrivateArg, reqArg,
        runValidator, hb] at hvv
    · have hsne : providedValues p "state" ≠ [] := hreq stateArg (by simp) rfl
      have hkne : providedValues p "admin-private" ≠ [] :=
        hreq adminPrivateArg (by simp [stateArg, quotaSpec, adminPrivateArg, reqArg]) rfl
      cases hs : providedValues p "state" with
      | nil => exact absurd hs hsne
      | cons v vs =>
      cases hk : providedValues p "admin-private" with
      | nil => exact absurd hk hkne
      | cons k ks =>
      have hvv := hvalid ("state", v) (mem_providedValues (hs ▸ List.mem_cons_self v vs))
      have hkv := hvalid ("admin-private", k)
        (mem_providedValues (hk ▸ List.mem_cons_self k ks))
      obtain ⟨b, hpb⟩ : ∃ b, parseBoolRust v = some b := by
        cases hpb : parseBoolRust v with
        | none =>
          simp [validOk, findSpec, stateArg, quotaSpec, adminPrivateArg, reqArg,
            runValidator, hpb] at hvv
        | some b => exact ⟨b, rfl⟩
      obtain ⟨key, hpk⟩ : ∃ key, parse_privkey k = .ok key := by
        cases hpk : parse_privkey k with
        | error e =>
          simp [validOk, findSpec, stateArg, quotaSpec, adminPrivateArg, reqArg,
            runValidator, Except.map, hpk] at hkv
        | ok key => exact ⟨key, rfl⟩
      cases hq : providedValues p "quota" with
      | nil =>
        have hr : r = [("state", v :: vs), ("admin-private", k :: ks)] := by
          rw [hres]
          simp [resolveArgs, stateArg, quotaSpec, adminPrivateArg, reqArg, hs, hk, hq]
        rw [hr] at hval
        have hdisp : dispatchCommand "EmergencyBrake" "setState"
            [("state", v :: vs), ("admin-private", k :: ks)] cfg
            = .ok ⟨some key, "EmergencyBrake", "set_state",
                [.boolArg b, .optNum none, .boolArg cfg.blake2b]⟩ := by
          simp [dispatchCommand, readKey, valueOf, unwrapStr, tryParse, mapU64, mapBool,
            hpk, hpb, Bind.bind, Step.bind, Step.pure_def, blake2b]
        exact runScm_no_panic_of_dispatch_ok hop hval hdisp
      | cons q qs =>
        have hqv := hvalid ("quota", q) (mem_providedValues (hq ▸ List.mem_cons_self q qs))
        obtain ⟨nq, hqu⟩ : ∃ nq, parse_u64 q = .ok nq := by
          cases hqu : parse_u64 q with
          | error e =>
            simp [validOk, findSpec, stateArg, quotaSpec, adminPrivateArg, reqArg,
              runValidator, Except.map, hqu] at hqv
          | ok nq => exact ⟨nq, rfl⟩
        have hr : r = [("state", v :: vs), ("quota", q :: qs), ("admin-private", k :: ks)] := by
          rw [hres]
          simp [resolveArgs, stateArg, quotaSpec, adminPrivateArg, reqArg, hs, hk, hq]
        rw [hr] at hval
        have hdisp : dispatchCommand "EmergencyBrake" "setState"
            [("state", v :: vs), ("quota", q :: qs), ("admin-private", k :: ks)] cfg
            = .ok ⟨some key, "EmergencyBrake", "set_state",
                [.boolArg b, .optNum (some nq), .boolArg cfg.blake2b]⟩ := by
          simp [dispatchCommand, readKey, valueOf, unwrapStr, tryParse, mapU64, mapBool,
            hpk, hpb, hqu, Bind.bind, Step.bind, Step.pure_def, blake2b]
        exact runScm_no_panic_of_dispatch_ok hop hval hdisp

/-- C5 witness: the literal scenario at concrete inputs — a non-boolean state
value fails validation with no facade call, and a boolean one never panics. -/
theorem c5_setState_rejects_non_boolean_witness :
    (∃ e, (runScm sampleOracle ⟨"EmergencyBrake", "setState",
        [("state", "notaboolean"), ("admin-private", sampleKey)]⟩ sampleCfg).outcome
      = .failure (.validationErr e)) ∧
    (runScm sampleOracle ⟨"EmergencyBrake", "setState",
        [("state", "notaboolean"), ("admin-private", sampleKey)]⟩ sampleCfg).calls = [] ∧
    (∀ msg, (runScm sampleOracle ⟨"EmergencyBrake", "setState",
        [("state", "true"), ("admin-private", sampleKey)]⟩ sampleCfg).outcome
      ≠ .panicked msg) :=
  ⟨((c5_setState_rejects_non_boolean sampleOracle sampleCfg
      [("state", "notaboolean"), ("admin-private", sampleKey)]).1
      ⟨"notaboolean", by decide, rfl⟩).1,
   ((c5_setState_rejects_non_boolean sampleOracle sampleCfg
      [("state", "notaboolean"), ("admin-private", sampleKey)]).1
      ⟨"notaboolean", by decide, rfl⟩).2,
   (c5_setState_rejects_non_boolean sampleOracle sampleCfg
      [("state", "true"), ("admin-private", sampleKey)]).2⟩

theorem allCongr {α : Type} {l : List α} {f g : α → Bool}
    (h : ∀ a ∈ l, f a = g a) : l.all f = l.all g := by
  induction l with
  | nil => rfl
  | cons x xs ih =>
    simp only [List.all_cons, h x (List.mem_cons_self x xs)]
    rw [ih fun a ha => h a (List.mem_cons_of_mem x ha)]

theorem filterMapCongr {α β : Type} {l : List α} {f g : α → Option β}
    (h : ∀ a ∈ l, f a = g a) : l.filterMap f = l.filterMap g := by
  induction l with
  | nil => rfl
  | cons x xs ih =>
    rw [List.filterMap_cons, List.filterMap_cons, h x (List.mem_cons_self x xs),
      ih fun a ha => h a (List.mem_cons_of_mem x ha)]

theorem providedValues_append (p q : List (String × String)) (n : String) :
    providedValues (p ++ q) n = providedValues p n ++ providedValues q n := by
  simp [providedValues, List.filter_append]

/-- Appending a `height latest` pair to an invocation that has none changes
nothing about validation and resolution, for a schema whose only
height-named argument is the standard height argument. -/
theorem validateArgs_append_height (specs : List ArgSpec) (p : List (String × String))
    (hh : ∀ s ∈ specs, s.name = "height" → s = heightSpec)
    (hdecl : heightSpec ∈ specs)
    (hnone : providedValues p "height" = []) :
    validateArgs specs (p ++ [("height", "latest")]) = validateArgs specs p := by
  have hpv : ∀ n, providedValues (p ++ [("height", "latest")]) n =
      if n = "height" then ["latest"] else providedValues p n := by
    intro n
    rw [providedValues_append]
    by_cases hn : n = "height"
    · subst hn
      rw [hnone]
      simp [providedValues]
    · have hb : ("height" == n) = false := beq_eq_false_iff_ne.mpr (Ne.symm hn)
      simp [providedValues, hb, hn]
  obtain ⟨s0, hs0, rfl⟩ : ∃ s0, findSpec specs "height" = some s0 ∧ s0 = heightSpec := by
    have h1 : (findSpec specs "height").isSome :=
      List.find?_isSome.mpr ⟨heightSpec, hdecl, by simp [heightSpec]⟩
    obtain ⟨s0, hsome⟩ := Option.isSome_iff_exists.mp h1
    exact ⟨s0, hsome,
      hh s0 (List.mem_of_find?_eq_some hsome) (by simpa using List.find?_some hsome)⟩
  have e1 : ((p ++ [("height", "latest")]).all fun q => declaredOk specs q)
      = (p.all fun q => declaredOk specs q) := by
    simp [List.all_append, declaredOk, hs0]
  have e2 : ((p ++ [("height", "latest")]).all fun q => validOk specs q)
      = (p.all fun q => validOk specs q) := by
    simp [List.all_append, validOk, hs0, heightSpec, runValidator, parse_height]
  have e3 : (specs.all fun s =>
        !s.required || !(providedValues (p ++ [("height", "latest")]) s.name).isEmpty)
      = (specs.all fun s => !s.required || !(providedValues p s.name).isEmpty) := by
    apply allCongr
    intro s hs
    rw [hpv]
    by_cases hn : s.name = "height"
    · rw [hh s hs hn]
      simp [heightSpec, hn]
    · simp [hn]
  have e4 : (specs.all fun s =>
        s.multiple || (providedValues (p ++ [("height", "latest")]) s.name).length ≤ 1)
      = (specs.all fun s => s.multiple || (providedValues p s.name).length ≤ 1) := by
    apply allCongr
    intro s hs
    rw [hpv]
    by_cases hn : s.name = "height"
    · rw [hh s hs hn]
      simp [heightSpec, hn, hnone]
    · simp [hn]
  have e5 : resolveArgs specs (p ++ [("height", "latest")]) = resolveArgs specs p := by
    unfold resolveArgs
    apply filterMapCongr
    intro s hs
    rw [hpv]
    by_cases hn : s.name = "height"
    · rw [hh s hs hn]
      simp [heightSpec, hn, hnone]
    · simp [hn]
  unfold validateArgs
  rw [e1, e2, e3, e4, e5]

/-- C8: for any operation whose schema declares the standard height argument
(default `latest`), an invocation omitting the height flag runs identically —
same validation, same resolved matches, same facade call, same outcome — to
the same invocation with `height latest` supplied. -/
theorem c8_omitted_height_equals_latest (facade : FacadeCall → Except String String)
    (rinv : RawInvocation) (cfg : GlobalConfig) (os : OpSpec)
    (hop : findOp rinv.group rinv.op = some os)
    (hdecl : heightSpec ∈ os.args)
    (hh : ∀ s ∈ os.args, s.name = "height" → s = heightSpec)
    (hnone : providedValues rinv.provided "height" = []) :
    runScm facade ⟨rinv.group, rinv.op, rinv.provided ++ [("height", "latest")]⟩ cfg
      = runScm facade rinv cfg := by
  obtain ⟨g, o, p⟩ := rinv
  simp only at hop hnone
  unfold runScm
  simp only
  rw [hop]
  dsimp only
  rw [validateArgs_append_height os.args p hh hdecl hnone]

/-- C8 witness: a SysConfig getEconomicalModel query with and without the
height flag, at concrete inputs. -/
theorem c8_omitted_height_equals_latest_witness :
    runScm sampleOracle
        ⟨"SysConfig", "getEconomicalModel", [("height", "latest")]⟩ sampleCfg
      = runScm sampleOracle ⟨"SysConfig", "getEconomicalModel", []⟩ sampleCfg :=
  c8_omitted_height_equals_latest sampleOracle
    ⟨"SysConfig", "getEconomicalModel", []⟩ sampleCfg
    ⟨"getEconomicalModel", [heightSpec]⟩ rfl (by simp) (by decide) rfl

end CitaCli
